import Mathlib

/-!
# vecpp: fixed-length vectors

A shallow embedding of `include/vecpp/vec/vec.h` and
`include/vecpp/vec/operations.h`.

* `Vec T len` embeds `template <typename T, std::size_t len> struct Vec`, whose
  only member is `std::array<T, len> data_`.
* A `std::size_t` index is a `Nat`.
* A function that can throw or trip an `assert` returns `Except Error _`.
* The element type `T` is a parameter. Its C++ operators `+ - * /`, unary `-`,
  `!=` and the literal `0` are the Lean operations of the same spelling, given
  by the instances `Add T`, `Sub T`, `Mul T`, `Div T`, `Neg T`, `BEq T` and
  `Zero T`; no law is assumed of them unless a theorem says so.
  The comparison `x != y` of two elements is Lean's `x != y`, the negation of
  `x == y`, as it is for every arithmetic type of C++.
* `for (std::size_t i = 0; i < L; ++i)` is a recursion that runs the body for
  `i = 0, 1, …, L - 1`; no body in the source writes to `i`.
* The compound operators take their right operand by reference, so it may be
  the left operand itself, or one of its elements: `VecRef` and `ScalarRef` say
  which object the reference names. The operators that return a new vector
  work on a local copy, which no argument can name.
* The square root of the scalar backend, `sqrt<traits>`, is a parameter
  `sqrt : T → T` of `norm` and `normalize`.
* A `std::ostream` is the text written to it so far, and the element type's own
  `stream << v` is a parameter `put : T → String`.
-/

namespace vecpp

/-- The two ways an operation of the library can fail. -/
inductive Error where
  /-- The exception `std::out_of_range("out of range vector access")`. -/
  | out_of_range
  /-- The debug assertion `assert(i < len)` of `operator[]` failed. -/
  | assertion_failure
  deriving DecidableEq, Repr

/-- The struct `Vec<T, len>`: its one data member `std::array<T, len> data_`. -/
structure Vec (T : Type) (len : Nat) where
  /-- The member `data_`, by index. -/
  data_ : Fin len → T

namespace Vec

variable {T : Type} {len L : Nat}

/-- The method `size()`: `return len;`. -/
def size (_v : Vec T len) : Nat := len

/-- Modelled from the spec: `operations.h` names the vector type as
`Vec<T, l, traits>` and reads its static member `length`, and the `Vec` of `vec.h`
declares neither. The spec's length query "returns the compile-time constant N",
so `length` is the template parameter `len`; `traits` only selects the square
root of `norm` and plays no part in `cross` and `dot`. -/
def length (_v : Vec T len) : Nat := len

/-- The method `at(i)`: `if (i >= len) throw std::out_of_range(...); return data_[i];`. -/
def at_ (v : Vec T len) (i : Nat) : Except Error T :=
  if h : i ≥ len then
    .error .out_of_range
  else
    .ok (v.data_ ⟨i, Nat.lt_of_not_ge h⟩)

/-- The const `operator[]`: `assert(i < len); return data_[i];`. -/
def index (v : Vec T len) (i : Nat) : Except Error T :=
  if h : i < len then
    .ok (v.data_ ⟨i, h⟩)
  else
    .error .assertion_failure

/-- The non-const `operator[]`, used as `v[i] = f(v[i])`: `assert(i < len)`,
then the element behind the returned reference is overwritten. Plain assignment
is `f = fun _ => x`, and `v[i] += x` is `f = (· + x)`. -/
def indexUpdate (v : Vec T len) (i : Nat) (f : T → T) : Except Error (Vec T len) :=
  if h : i < len then
    .ok ⟨Function.update v.data_ ⟨i, h⟩ (f (v.data_ ⟨i, h⟩))⟩
  else
    .error .assertion_failure

end Vec

/-- What a `const Vec<T, L>& rhs` argument of a compound operator refers to. -/
inductive VecRef (T : Type) (L : Nat) where
  /-- A vector that is not the left operand. -/
  | other (v : Vec T L)
  /-- The left operand itself, as in `a += a`. -/
  | self

/-- The vector behind a reference, given the left operand as it is now. -/
def VecRef.read {T : Type} {L : Nat} : VecRef T L → Vec T L → Vec T L
  | .other v, _ => v
  | .self, lhs => lhs

/-- What a `const T& rhs` argument of a compound operator refers to. -/
inductive ScalarRef (T : Type) (L : Nat) where
  /-- A scalar that is not stored in the left operand. -/
  | value (x : T)
  /-- Element `k` of the left operand, as in `v *= v[0]`. -/
  | element (k : Fin L)

/-- The scalar behind a reference, given the left operand as it is now. -/
def ScalarRef.read {T : Type} {L : Nat} : ScalarRef T L → Vec T L → T
  | .value x, _ => x
  | .element k, lhs => lhs.data_ k

/-- The loop `for (std::size_t i = i0; i < i0 + n; ++i) s = body(i, s)`, stopping at
the first failure of the body. The operators call it as `forLoop body L 0 s`,
which is `for (std::size_t i = 0; i < L; ++i)`. -/
def forLoop {σ : Type} (body : Nat → σ → Except Error σ) : Nat → Nat → σ → Except Error σ
  | 0, _, s => .ok s
  | n + 1, i, s =>
    match body i s with
    | .ok s' => forLoop body n (i + 1) s'
    | .error e => .error e

section Operators

variable {T : Type} {L : Nat}

/-- The loop of `operator==` from index `i` on, with `n` iterations left, and the
`return true` after it. -/
def eqLoop [BEq T] (lhs rhs : Vec T L) : Nat → Nat → Except Error Bool
  | 0, _ => .ok true
  | n + 1, i =>
    match lhs.index i, rhs.index i with
    | .ok x, .ok y => if x != y then .ok false else eqLoop lhs rhs n (i + 1)
    | .error e, _ => .error e
    | _, .error e => .error e

/-- The free function `operator==(const Vec<T, L>&, const Vec<T, L>&)`. -/
def operator_eq [BEq T] (lhs rhs : Vec T L) : Except Error Bool :=
  eqLoop lhs rhs L 0

/-- The loop of `operator!=` from index `i` on, with `n` iterations left, and the
`return false` after it. -/
def neLoop [BEq T] (lhs rhs : Vec T L) : Nat → Nat → Except Error Bool
  | 0, _ => .ok false
  | n + 1, i =>
    match lhs.index i, rhs.index i with
    | .ok x, .ok y => if x != y then .ok true else neLoop lhs rhs n (i + 1)
    | .error e, _ => .error e
    | _, .error e => .error e

/-- The free function `operator!=(const Vec<T, L>&, const Vec<T, L>&)`. -/
def operator_ne [BEq T] (lhs rhs : Vec T L) : Except Error Bool :=
  neLoop lhs rhs L 0

/-- The statement `lhs[i] op= rhs[i]`: `rhs[i]` is read through the const
`operator[]` from the vector `rhs` refers to, then the element behind `lhs[i]`
is updated in place. -/
def elemAssign (op : T → T → T) (rhs : VecRef T L) (i : Nat) (lhs : Vec T L) :
    Except Error (Vec T L) :=
  match (rhs.read lhs).index i with
  | .ok y => lhs.indexUpdate i (fun x => op x y)
  | .error e => .error e

/-- The statement `lhs[i] op= rhs` for a scalar reference `rhs`. -/
def scalarAssign (op : T → T → T) (rhs : ScalarRef T L) (i : Nat) (lhs : Vec T L) :
    Except Error (Vec T L) :=
  lhs.indexUpdate i (fun x => op x (rhs.read lhs))

/-- The unary `operator-`: `Vec<T, L> result = {};` then `result[i] = -rhs[i]` for
every `i`. -/
def operator_neg [Zero T] [Neg T] (rhs : Vec T L) : Except Error (Vec T L) :=
  forLoop (elemAssign (fun _ y => -y) (.other rhs)) L 0 ⟨fun _ => 0⟩

/-- The function `operator+=` on two vectors: `lhs[i] += rhs[i]` for every `i`; the
result is the new value of `lhs`. -/
def operator_add_assign [Add T] (lhs : Vec T L) (rhs : VecRef T L) :
    Except Error (Vec T L) :=
  forLoop (elemAssign (· + ·) rhs) L 0 lhs

/-- The function `operator+` on two vectors: `result = lhs; result += rhs; return result;`. -/
def operator_add [Add T] (lhs rhs : Vec T L) : Except Error (Vec T L) :=
  operator_add_assign lhs (.other rhs)

/-- The function `operator-=` on two vectors: `lhs[i] -= rhs[i]` for every `i`. -/
def operator_sub_assign [Sub T] (lhs : Vec T L) (rhs : VecRef T L) :
    Except Error (Vec T L) :=
  forLoop (elemAssign (· - ·) rhs) L 0 lhs

/-- The binary `operator-` on two vectors: `result = lhs; result -= rhs; return result;`. -/
def operator_sub [Sub T] (lhs rhs : Vec T L) : Except Error (Vec T L) :=
  operator_sub_assign lhs (.other rhs)

/-- The function `operator*=` on two vectors: `lhs[i] *= rhs[i]` for every `i`. -/
def operator_mul_assign [Mul T] (lhs : Vec T L) (rhs : VecRef T L) :
    Except Error (Vec T L) :=
  forLoop (elemAssign (· * ·) rhs) L 0 lhs

/-- The function `operator*` on two vectors: `result = lhs; result *= rhs; return result;`. -/
def operator_mul [Mul T] (lhs rhs : Vec T L) : Except Error (Vec T L) :=
  operator_mul_assign lhs (.other rhs)

/-- The function `operator/=` on two vectors: `lhs[i] /= rhs[i]` for every `i`. -/
def operator_div_assign [Div T] (lhs : Vec T L) (rhs : VecRef T L) :
    Except Error (Vec T L) :=
  forLoop (elemAssign (· / ·) rhs) L 0 lhs

/-- The function `operator/` on two vectors: `result = lhs; result /= rhs; return result;`. -/
def operator_div [Div T] (lhs rhs : Vec T L) : Except Error (Vec T L) :=
  operator_div_assign lhs (.other rhs)

/-- The function `operator*=(Vec<T, L>&, const T&)`: `lhs[i] *= rhs` for every `i`. -/
def operator_mul_assign_scalar [Mul T] (lhs : Vec T L) (rhs : ScalarRef T L) :
    Except Error (Vec T L) :=
  forLoop (scalarAssign (· * ·) rhs) L 0 lhs

/-- The function `operator*(const Vec<T, L>&, const T&)`: `result = lhs; result *= rhs;`. -/
def operator_mul_scalar [Mul T] (lhs : Vec T L) (rhs : T) : Except Error (Vec T L) :=
  operator_mul_assign_scalar lhs (.value rhs)

/-- The function `operator*(const T&, const Vec<T, L>&)`: `return rhs * lhs;`. -/
def operator_scalar_mul [Mul T] (lhs : T) (rhs : Vec T L) : Except Error (Vec T L) :=
  operator_mul_scalar rhs lhs

/-- The function `operator/=(Vec<T, L>&, const T&)`: `lhs[i] /= rhs` for every `i`. -/
def operator_div_assign_scalar [Div T] (lhs : Vec T L) (rhs : ScalarRef T L) :
    Except Error (Vec T L) :=
  forLoop (scalarAssign (· / ·) rhs) L 0 lhs

/-- The function `operator/(const Vec<T, L>&, const T&)`: `result = lhs; result /= rhs;`. -/
def operator_div_scalar [Div T] (lhs : Vec T L) (rhs : T) : Except Error (Vec T L) :=
  operator_div_assign_scalar lhs (.value rhs)

/-- The function `cross`: the three components are computed from `lhs[1]`, `rhs[2]`, …
through `operator[]` and put into a new vector. -/
def cross [Mul T] [Sub T] (lhs rhs : Vec T 3) : Except Error (Vec T 3) := do
  let l0 ← lhs.index 0
  let l1 ← lhs.index 1
  let l2 ← lhs.index 2
  let r0 ← rhs.index 0
  let r1 ← rhs.index 1
  let r2 ← rhs.index 2
  pure ⟨![l1 * r2 - l2 * r1, l2 * r0 - l0 * r2, l0 * r1 - l1 * r0]⟩

/-- The statement `result += lhs[i] * rhs[i]` of `dot`. -/
def dotStep [Add T] [Mul T] (lhs rhs : Vec T L) (i : Nat) (result : T) : Except Error T :=
  match lhs.index i, rhs.index i with
  | .ok x, .ok y => .ok (result + x * y)
  | .error e, _ => .error e
  | _, .error e => .error e

/-- The function `dot`: `T result = 0;` then `result += lhs[i] * rhs[i]` for
`i < lhs.length`, then `return result;`. -/
def dot [Zero T] [Add T] [Mul T] (lhs rhs : Vec T L) : Except Error T :=
  forLoop (dotStep lhs rhs) lhs.length 0 0

/-- The function `norm`: `return sqrt<traits>(dot(v, v));`. The function
`sqrt<traits>` is declared in `vecpp/scalar/operations.h`, which is not among the
sources; the spec describes it as one pure function of the scalar backend, so it
is the parameter `sqrt`. -/
def norm [Zero T] [Add T] [Mul T] (sqrt : T → T) (v : Vec T L) : Except Error T :=
  match dot v v with
  | .ok d => .ok (sqrt d)
  | .error e => .error e

/-- The function `normalize`: `return v / norm(v);`, the vector-scalar
`operator/` applied to the value of `norm(v)`. -/
def normalize [Zero T] [Add T] [Mul T] [Div T] (sqrt : T → T) (v : Vec T L) :
    Except Error (Vec T L) :=
  match norm sqrt v with
  | .ok n => operator_div_scalar v n
  | .error e => .error e

/-- The loop of `operator<<` over the elements still to print: `if (!first)` the
separator is written, `else first = false;`, then the element `v` is written.
The stream is the text written to it so far, and `put v` is the text that the
element type's own `stream << v` writes. -/
def streamLoop (put : T → String) : List T → Bool → String → String
  | [], _, stream => stream
  | v :: rest, first, stream =>
    if !first then
      streamLoop put rest first ((stream ++ ", ") ++ put v)
    else
      streamLoop put rest false (stream ++ put v)

/-- The function `operator<<(std::ostream&, const Vec<T, L>&)`: writes `"("`, runs
the loop over the range `begin(vec) … end(vec)`, which is the elements in index
order, and writes `")"`. -/
def operator_lshift (put : T → String) (stream : String) (vec : Vec T L) : String :=
  streamLoop put (List.ofFn vec.data_) true (stream ++ "(") ++ ")"

end Operators

/-! ## Checked access -/

section Access

variable {T : Type} {len : Nat}

/-- C1: checked access `at(i)` returns element `i` when `i < len`, throws
`out_of_range` when `i ≥ len`, and fails in no other case; on the vector
`(1, 2, 3)`, `at(3)` throws and `at(2)` returns `3`. -/
theorem at_spec (v : Vec T len) (i : Nat) :
    (∀ h : i < len, v.at_ i = .ok (v.data_ ⟨i, h⟩)) ∧
    (len ≤ i → v.at_ i = .error .out_of_range) ∧
    ((∃ e, v.at_ i = .error e) ↔ len ≤ i) ∧
    (⟨![1, 2, 3]⟩ : Vec Int 3).at_ 3 = .error .out_of_range ∧
    (⟨![1, 2, 3]⟩ : Vec Int 3).at_ 2 = .ok 3 := by
  refine ⟨?_, ?_, ?_, rfl, rfl⟩
  · intro h
    simp [Vec.at_, Nat.not_le.mpr h]
  · intro h
    simp [Vec.at_, h]
  · by_cases h : len ≤ i
    · simp [Vec.at_, h]
    · simp [Vec.at_, h]

end Access

/-! ## Comparisons -/

section Comparisons

variable {T : Type} {L : Nat} [BEq T]

/-- From index `i` on, `operator==` never trips the assertion of `operator[]`, and
its answer is `true` exactly when no later pair of elements differs under `!=`. -/
theorem eqLoop_spec (lhs rhs : Vec T L) :
    ∀ n i, i + n = L → ∃ r, eqLoop lhs rhs n i = .ok r ∧
      (r = true ↔ ∀ j : Fin L, i ≤ j.val → (lhs.data_ j != rhs.data_ j) = false) := by
  intro n
  induction n with
  | zero =>
    intro i hi
    refine ⟨true, rfl, ?_⟩
    simp only [true_iff]
    intro j hj
    omega
  | succ n ih =>
    intro i hi
    have hlt : i < L := by omega
    obtain ⟨r, hr, hrs⟩ := ih (i + 1) (by omega)
    by_cases hne : (lhs.data_ ⟨i, hlt⟩ != rhs.data_ ⟨i, hlt⟩) = true
    · refine ⟨false, by simp [eqLoop, Vec.index, hlt, hne], ?_⟩
      constructor
      · intro h
        cases h
      · intro h
        have := h ⟨i, hlt⟩ (Nat.le_refl i)
        rw [hne] at this
        cases this
    · refine ⟨r, by simp [eqLoop, Vec.index, hlt, hne, hr], ?_⟩
      rw [hrs]
      constructor
      · intro h j hj
        rcases Nat.eq_or_lt_of_le hj with h1 | h1
        · have hj2 : j = ⟨i, hlt⟩ := Fin.ext h1.symm
          subst hj2
          simpa using hne
        · exact h j h1
      · intro h j hj
        exact h j (by omega)

/-- From index `i` on, `operator!=` answers the opposite of `operator==`. -/
theorem neLoop_eq_not_eqLoop (lhs rhs : Vec T L) :
    ∀ n i, i + n = L →
      ∃ r, eqLoop lhs rhs n i = .ok r ∧ neLoop lhs rhs n i = .ok (!r) := by
  intro n
  induction n with
  | zero =>
    intro i _
    exact ⟨true, rfl, rfl⟩
  | succ n ih =>
    intro i hi
    have hlt : i < L := by omega
    obtain ⟨r, hr, hr2⟩ := ih (i + 1) (by omega)
    by_cases hne : (lhs.data_ ⟨i, hlt⟩ != rhs.data_ ⟨i, hlt⟩) = true
    · exact ⟨false, by simp [eqLoop, Vec.index, hlt, hne],
        by simp [neLoop, Vec.index, hlt, hne]⟩
    · exact ⟨r, by simp [eqLoop, Vec.index, hlt, hne, hr],
        by simp [neLoop, Vec.index, hlt, hne, hr2]⟩

/-- C2: `a == b` returns a Boolean (no assertion fails), and it is `true` if and
only if `a[i] == b[i]` holds under the element type's equality for every
`i < L`. -/
theorem operator_eq_iff (a b : Vec T L) :
    ∃ r, operator_eq a b = .ok r ∧
      (r = true ↔ ∀ i : Fin L, (a.data_ i == b.data_ i) = true) := by
  obtain ⟨r, hr, hrs⟩ := eqLoop_spec a b L 0 (by omega)
  refine ⟨r, hr, ?_⟩
  rw [hrs]
  constructor
  · intro h i
    have := h i (Nat.zero_le _)
    simpa [bne] using this
  · intro h i _
    simp [bne, h i]

/-- C3: `a != b` is the negation of `a == b`: both return, and with opposite
answers, though each runs its own loop. -/
theorem operator_ne_eq_not_operator_eq (a b : Vec T L) :
    ∃ r, operator_eq a b = .ok r ∧ operator_ne a b = .ok (!r) :=
  neLoop_eq_not_eqLoop a b L 0 (by omega)

end Comparisons

/-! ## Elementwise loops -/

section Pointwise

variable {T : Type} {L : Nat}

/-- Two vectors with the same elements are the same vector. -/
theorem Vec.ext_data {a b : Vec T L} (h : a.data_ = b.data_) : a = b := by
  cases a
  cases b
  cases h
  rfl

/-- A loop whose iteration `i` rewrites element `i` as `g i` of its old value
runs to the end without failing and leaves `g j (v[j])` at every index `j` it
visited, the other elements untouched. -/
theorem forLoop_pointwise (g : Fin L → T → T) (body : Nat → Vec T L → Except Error (Vec T L))
    (hbody : ∀ (i : Nat) (h : i < L) (v : Vec T L),
      body i v = .ok ⟨Function.update v.data_ ⟨i, h⟩ (g ⟨i, h⟩ (v.data_ ⟨i, h⟩))⟩) :
    ∀ (n i : Nat) (v : Vec T L), i + n = L →
      forLoop body n i v =
        .ok ⟨fun j => if i ≤ j.val then g j (v.data_ j) else v.data_ j⟩ := by
  intro n
  induction n with
  | zero =>
    intro i v hi
    simp only [forLoop]
    congr 1
    apply Vec.ext_data
    funext j
    have : ¬ i ≤ j.val := by omega
    simp [this]
  | succ n ih =>
    intro i v hi
    have hlt : i < L := by omega
    simp only [forLoop, hbody i hlt v]
    rw [ih (i + 1) _ (by omega)]
    congr 2
    funext j
    by_cases h1 : j = ⟨i, hlt⟩
    · subst h1
      simp
    · have h2 : j.val ≠ i := fun h => h1 (Fin.ext h)
      by_cases h3 : i ≤ j.val
      · have h4 : i + 1 ≤ j.val := by omega
        simp [h1, h3, h4]
      · have h4 : ¬ i + 1 ≤ j.val := by omega
        simp [h1, h3, h4]

/-- The whole loop `for (i = 0; i < L; ++i)` of a pointwise body. -/
theorem forLoop_pointwise_all (g : Fin L → T → T)
    (body : Nat → Vec T L → Except Error (Vec T L))
    (hbody : ∀ (i : Nat) (h : i < L) (v : Vec T L),
      body i v = .ok ⟨Function.update v.data_ ⟨i, h⟩ (g ⟨i, h⟩ (v.data_ ⟨i, h⟩))⟩)
    (v : Vec T L) :
    forLoop body L 0 v = .ok ⟨fun j => g j (v.data_ j)⟩ := by
  rw [forLoop_pointwise g body hbody L 0 v (by omega)]
  simp

/-- The statement `lhs[i] op= rhs[i]` at an index inside the vector, for a right
operand that is not the left one. -/
theorem elemAssign_ok (op : T → T → T) (rhs : Vec T L) (i : Nat) (h : i < L) (lhs : Vec T L) :
    elemAssign op (.other rhs) i lhs =
      .ok ⟨Function.update lhs.data_ ⟨i, h⟩
        (op (lhs.data_ ⟨i, h⟩) (rhs.data_ ⟨i, h⟩))⟩ := by
  simp [elemAssign, VecRef.read, Vec.index, Vec.indexUpdate, h]

/-- The loop `lhs[i] op= rhs[i]` over the whole vector, for a right operand that
is not the left one. -/
theorem forLoop_elemAssign (op : T → T → T) (lhs rhs : Vec T L) :
    forLoop (elemAssign op (.other rhs)) L 0 lhs =
      .ok ⟨fun j => op (lhs.data_ j) (rhs.data_ j)⟩ :=
  forLoop_pointwise_all (fun j x => op x (rhs.data_ j)) _
    (fun i h v => elemAssign_ok op rhs i h v) lhs

/-- The loop `lhs[i] op= s` over the whole vector, for a scalar `s` that is not
stored in the left operand. -/
theorem forLoop_scalar (op : T → T → T) (lhs : Vec T L) (s : T) :
    forLoop (scalarAssign op (.value s)) L 0 lhs =
      .ok ⟨fun j => op (lhs.data_ j) s⟩ :=
  forLoop_pointwise_all (fun _ x => op x s) _
    (fun i h v => by simp [scalarAssign, ScalarRef.read, Vec.indexUpdate, h]) lhs

/-- Unary negation returns the vector of the negated elements. -/
theorem operator_neg_eq [Zero T] [Neg T] (v : Vec T L) :
    operator_neg v = .ok ⟨fun j => -v.data_ j⟩ :=
  forLoop_elemAssign (fun _ y => -y) ⟨fun _ => 0⟩ v

/-- Comparing a vector with itself gives `true` when the element equality is
reflexive, as every `DecidableEq` is. -/
theorem operator_eq_self [DecidableEq T] (a : Vec T L) : operator_eq a a = .ok true := by
  obtain ⟨r, hr, hrs⟩ := eqLoop_spec a a L 0 (by omega)
  have : r = true := hrs.mpr (fun j _ => by simp)
  rw [operator_eq, hr, this]

end Pointwise

/-! ## Arithmetic operators -/

section Arithmetic

variable {T : Type} {L : Nat}

/-- C4: for each of `+`, `-`, `*`, `/` on two vectors of length `L`, the result is
the vector of length `L` whose element `i` is `a[i] op b[i]`; and
`(1, 2, 3) + (4, 5, 6)` is `(5, 7, 9)`. -/
theorem operator_elementwise [Add T] [Sub T] [Mul T] [Div T] (a b : Vec T L) :
    operator_add a b = .ok ⟨fun i => a.data_ i + b.data_ i⟩ ∧
    operator_sub a b = .ok ⟨fun i => a.data_ i - b.data_ i⟩ ∧
    operator_mul a b = .ok ⟨fun i => a.data_ i * b.data_ i⟩ ∧
    operator_div a b = .ok ⟨fun i => a.data_ i / b.data_ i⟩ ∧
    operator_add (⟨![1, 2, 3]⟩ : Vec Int 3) ⟨![4, 5, 6]⟩ = .ok ⟨![5, 7, 9]⟩ := by
  refine ⟨forLoop_elemAssign _ a b, forLoop_elemAssign _ a b, forLoop_elemAssign _ a b,
    forLoop_elemAssign _ a b, ?_⟩
  rw [operator_add, operator_add_assign, forLoop_elemAssign]
  congr 2
  funext i
  fin_cases i <;> rfl

/-- C5: scalar broadcast applies the scalar to every element: `v * s` returns the
vector whose element `i` is `v[i] * s`, and `v / s` the vector whose element `i`
is `v[i] / s`. -/
theorem operator_scalar_broadcast [Mul T] [Div T] (v : Vec T L) (s : T) :
    operator_mul_scalar v s = .ok ⟨fun i => v.data_ i * s⟩ ∧
    operator_div_scalar v s = .ok ⟨fun i => v.data_ i / s⟩ :=
  ⟨forLoop_scalar _ v s, forLoop_scalar _ v s⟩

/-- C6: scalar multiplication commutes: `s * v` and `v * s` return the same
vector, the vector `==` of the two answers `true`, and
`2 * (1, 2, 3) = (2, 4, 6) = (1, 2, 3) * 2`. -/
theorem operator_scalar_mul_comm [Mul T] [DecidableEq T] (s : T) (v : Vec T L) :
    operator_scalar_mul s v = operator_mul_scalar v s ∧
    (∃ x y, operator_scalar_mul s v = .ok x ∧ operator_mul_scalar v s = .ok y ∧
      operator_eq x y = .ok true) ∧
    operator_scalar_mul 2 (⟨![1, 2, 3]⟩ : Vec Int 3) = .ok ⟨![2, 4, 6]⟩ ∧
    operator_mul_scalar (⟨![1, 2, 3]⟩ : Vec Int 3) 2 = .ok ⟨![2, 4, 6]⟩ := by
  have hex : operator_mul_scalar (⟨![1, 2, 3]⟩ : Vec Int 3) 2 = .ok ⟨![2, 4, 6]⟩ := by
    rw [operator_mul_scalar, operator_mul_assign_scalar, forLoop_scalar]
    congr 2
    funext i
    fin_cases i <;> rfl
  refine ⟨rfl, ⟨_, _, forLoop_scalar _ v s, forLoop_scalar _ v s, operator_eq_self _⟩,
    hex, hex⟩

end Arithmetic

/-! ## Geometric operations -/

section Geometric

variable {T : Type} {L : Nat}

/-- The statement `result += lhs[i] * rhs[i]` at an index inside the vectors. -/
theorem dotStep_ok [Add T] [Mul T] (lhs rhs : Vec T L) (i : Nat) (h : i < L) (acc : T) :
    dotStep lhs rhs i acc = .ok (acc + lhs.data_ ⟨i, h⟩ * rhs.data_ ⟨i, h⟩) := by
  simp [dotStep, Vec.index, h]

/-- From index `i` on, the loop of `dot` never trips the assertion of
`operator[]` and adds the products `lhs[j] * rhs[j]`, `j = i, i + 1, …, L - 1`, to
the accumulator one after the other. -/
theorem forLoop_dotStep [Add T] [Mul T] (lhs rhs : Vec T L) :
    ∀ (n i : Nat) (acc : T), i + n = L →
      forLoop (dotStep lhs rhs) n i acc =
        .ok (((List.finRange L).drop i).foldl
          (fun r j => r + lhs.data_ j * rhs.data_ j) acc) := by
  intro n
  induction n with
  | zero =>
    intro i acc hi
    have : (List.finRange L).drop i = [] := by
      apply List.drop_eq_nil_of_le
      simp
      omega
    simp [forLoop, this]
  | succ n ih =>
    intro i acc hi
    have hlt : i < L := by omega
    have hd : (List.finRange L).drop i = ⟨i, hlt⟩ :: (List.finRange L).drop (i + 1) := by
      rw [List.drop_eq_getElem_cons (by simpa using hlt)]
      simp
    simp only [forLoop, dotStep_ok lhs rhs i hlt]
    rw [ih (i + 1) _ (by omega), hd, List.foldl_cons]

/-- C7: `dot(a, b)` returns the sum of the products `a[i] * b[i]` for `i` from `0` to
`L - 1`, added one after the other from left to right onto the initial value
`0`, for any length `L`; and `dot((3, 4), (3, 4))` is `25`. -/
theorem dot_spec [Zero T] [Add T] [Mul T] (a b : Vec T L) :
    dot a b = .ok ((List.finRange L).foldl (fun r i => r + a.data_ i * b.data_ i) 0) ∧
    dot (⟨![3, 4]⟩ : Vec Int 2) ⟨![3, 4]⟩ = .ok 25 := by
  refine ⟨?_, rfl⟩
  rw [dot, Vec.length, forLoop_dotStep a b L 0 0 (by omega), List.drop_zero]

/-- The components of `cross`, with no law assumed of `*` and `-`. -/
theorem cross_eq [Mul T] [Sub T] (a b : Vec T 3) :
    cross a b = .ok ⟨![a.data_ 1 * b.data_ 2 - a.data_ 2 * b.data_ 1,
      a.data_ 2 * b.data_ 0 - a.data_ 0 * b.data_ 2,
      a.data_ 0 * b.data_ 1 - a.data_ 1 * b.data_ 0]⟩ :=
  rfl

/-- The function `dot` on vectors of length 3, written out. -/
theorem dot_three [Zero T] [Add T] [Mul T] (a b : Vec T 3) :
    dot a b = .ok (0 + a.data_ 0 * b.data_ 0 + a.data_ 1 * b.data_ 1 +
      a.data_ 2 * b.data_ 2) :=
  rfl

/-- C8: `cross(a, b)` returns the vector
`(a1*b2 - a2*b1, a2*b0 - a0*b2, a0*b1 - a1*b0)`, and
`cross((1, 0, 0), (0, 1, 0))` is `(0, 0, 1)`. -/
theorem cross_spec [Mul T] [Sub T] (a b : Vec T 3) :
    cross a b = .ok ⟨![a.data_ 1 * b.data_ 2 - a.data_ 2 * b.data_ 1,
      a.data_ 2 * b.data_ 0 - a.data_ 0 * b.data_ 2,
      a.data_ 0 * b.data_ 1 - a.data_ 1 * b.data_ 0]⟩ ∧
    cross (⟨![1, 0, 0]⟩ : Vec Int 3) ⟨![0, 1, 0]⟩ = .ok ⟨![0, 0, 1]⟩ := by
  refine ⟨rfl, ?_⟩
  rw [cross_eq]
  simp

/-- C9: cross orthogonality: over a commutative ring (the integers, or the
integers modulo `2 ^ w`), `cross(a, b)` returns a vector `c` with
`dot(c, a) = 0` and `dot(c, b) = 0`. -/
theorem cross_orthogonal [CommRing T] (a b : Vec T 3) :
    ∃ c, cross a b = .ok c ∧ dot c a = .ok 0 ∧ dot c b = .ok 0 := by
  refine ⟨_, cross_eq a b, ?_, ?_⟩
  · rw [dot_three]
    congr 1
    simp
    ring
  · rw [dot_three]
    congr 1
    simp
    ring

/-- C10: cross anticommutativity: over a commutative ring, `cross(a, b)` is the
vector that unary negation returns on `cross(b, a)`, the vector `==` of the two
answers `true`, and `cross(a, a)` is the zero vector. -/
theorem cross_anticomm [CommRing T] [DecidableEq T] (a b : Vec T 3) :
    (∃ c d n, cross a b = .ok c ∧ cross b a = .ok d ∧ operator_neg d = .ok n ∧
      c = n ∧ operator_eq c n = .ok true) ∧
    cross a a = .ok ⟨fun _ => 0⟩ := by
  constructor
  · refine ⟨_, _, _, cross_eq a b, cross_eq b a, operator_neg_eq _, ?_, ?_⟩
    · apply Vec.ext_data
      funext i
      fin_cases i <;> simp <;> ring
    · have h : (⟨![a.data_ 1 * b.data_ 2 - a.data_ 2 * b.data_ 1,
          a.data_ 2 * b.data_ 0 - a.data_ 0 * b.data_ 2,
          a.data_ 0 * b.data_ 1 - a.data_ 1 * b.data_ 0]⟩ : Vec T 3) =
          ⟨fun j => -(⟨![b.data_ 1 * a.data_ 2 - b.data_ 2 * a.data_ 1,
            b.data_ 2 * a.data_ 0 - b.data_ 0 * a.data_ 2,
            b.data_ 0 * a.data_ 1 - b.data_ 1 * a.data_ 0]⟩ : Vec T 3).data_ j⟩ := by
        apply Vec.ext_data
        funext i
        fin_cases i <;> simp <;> ring
      rw [← h]
      exact operator_eq_self _
  · rw [cross_eq]
    congr 1
    apply Vec.ext_data
    funext i
    fin_cases i <;> simp <;> ring

end Geometric

/-! ## Laws of `dot` -/

section DotLaws

variable {T : Type} {L : Nat}

/-- The function `dot` returns the left fold of the products; this is the loop
of `dot` run from index `0`. -/
theorem dot_eq_foldl [Zero T] [Add T] [Mul T] (a b : Vec T L) :
    dot a b = .ok ((List.finRange L).foldl (fun r i => r + a.data_ i * b.data_ i) 0) := by
  rw [dot, Vec.length, forLoop_dotStep a b L 0 0 (by omega), List.drop_zero]

/-- Adding the terms `f i + g i` one after the other onto `x + y` gives the sum of
adding the `f i` onto `x` and the `g i` onto `y`. -/
theorem foldl_add_distrib {ι : Type} [AddCommSemigroup T] (f g : ι → T) (l : List ι) :
    ∀ x y : T, l.foldl (fun r i => r + (f i + g i)) (x + y) =
      l.foldl (fun r i => r + f i) x + l.foldl (fun r i => r + g i) y := by
  induction l with
  | nil =>
    intro x y
    rfl
  | cons i l ih =>
    intro x y
    simp only [List.foldl_cons]
    rw [← ih (x + f i) (y + g i)]
    congr 1
    rw [add_add_add_comm]

/-- Adding non-negative terms one after the other onto a non-negative value
gives a non-negative value. -/
theorem foldl_add_nonneg {ι : Type} [OrderedSemiring T] (f : ι → T) (hf : ∀ i, 0 ≤ f i)
    (l : List ι) : ∀ x : T, 0 ≤ x → 0 ≤ l.foldl (fun r i => r + f i) x := by
  induction l with
  | nil =>
    intro x hx
    exact hx
  | cons i l ih =>
    intro x hx
    exact ih (x + f i) (add_nonneg hx (hf i))

/-- Over a semiring the left fold of `dot` is the sum of the products. -/
theorem dot_eq_sum [NonUnitalNonAssocSemiring T] (a b : Vec T L) :
    dot a b = .ok (∑ i : Fin L, a.data_ i * b.data_ i) := by
  rw [dot_eq_foldl, Fin.sum_univ_def, List.sum_eq_foldl, List.foldl_map]

/-- C11: dot bilinearity: over a ring, `a + b` returns a vector `s`, and
`dot(s, c)` returns the sum of what `dot(a, c)` and `dot(b, c)` return. -/
theorem dot_add_left [Ring T] (a b c : Vec T L) :
    ∃ s x y z, operator_add a b = .ok s ∧ dot s c = .ok x ∧ dot a c = .ok y ∧
      dot b c = .ok z ∧ x = y + z := by
  refine ⟨_, _, _, _, forLoop_elemAssign _ a b, dot_eq_foldl _ c, dot_eq_foldl a c,
    dot_eq_foldl b c, ?_⟩
  have h := foldl_add_distrib (fun i => a.data_ i * c.data_ i)
    (fun i => b.data_ i * c.data_ i) (List.finRange L) 0 0
  simp only [add_zero] at h
  rw [← h]
  congr 1
  funext r i
  rw [add_mul]

/-- C13: over a linearly ordered ring, `dot(v, v)` returns a non-negative value. -/
theorem dot_self_nonneg [LinearOrderedRing T] (v : Vec T L) :
    ∃ d, dot v v = .ok d ∧ 0 ≤ d :=
  ⟨_, dot_eq_foldl v v,
    foldl_add_nonneg (fun i => v.data_ i * v.data_ i) (fun _ => mul_self_nonneg _)
      (List.finRange L) 0 (le_refl 0)⟩

end DotLaws

/-! ## Norm and normalization -/

section Norm

variable {T : Type} {L : Nat}

/-- The function `norm` returns the backend square root of what `dot(v, v)`
returns, with no law assumed of the element type or of the square root. -/
theorem norm_eq [Zero T] [Add T] [Mul T] (sqrt : T → T) (v : Vec T L) :
    ∃ d, dot v v = .ok d ∧ norm sqrt v = .ok (sqrt d) := by
  refine ⟨_, dot_eq_foldl v v, ?_⟩
  rw [norm, dot_eq_foldl]

/-- Over a semiring, `dot` of the zero vector with itself returns `0`. -/
theorem dot_zero_zero [NonUnitalNonAssocSemiring T] :
    dot (⟨fun _ => 0⟩ : Vec T L) ⟨fun _ => 0⟩ = .ok 0 := by
  rw [dot_eq_sum]
  simp

/-- The function `normalize` returns the vector of the elements divided by what
`norm(v)` returns. -/
theorem normalize_eq [Zero T] [Add T] [Mul T] [Div T] (sqrt : T → T) (v : Vec T L) :
    ∃ n, norm sqrt v = .ok n ∧ normalize sqrt v = .ok ⟨fun i => v.data_ i / n⟩ := by
  obtain ⟨d, _, hn⟩ := norm_eq sqrt v
  refine ⟨sqrt d, hn, ?_⟩
  rw [normalize, hn]
  exact forLoop_scalar _ v (sqrt d)

/-- C12: `norm(v)` returns the backend square root of what `dot(v, v)` returns,
for every vector and every backend; so over a linearly ordered ring, with a
square root that is non-negative on non-negative input and maps `0` to `0`,
`norm(w)` is non-negative and `norm` of the zero vector is `0`; and
`norm((3, 4))` is `5` for a square root that maps `25` to `5`. -/
theorem norm_spec [Zero T] [Add T] [Mul T] (sqrt : T → T) (v : Vec T L) :
    (∃ d, dot v v = .ok d ∧ norm sqrt v = .ok (sqrt d)) ∧
    (∀ (R : Type) [LinearOrderedRing R] (M : Nat) (sqrtR : R → R) (w : Vec R M),
      (∀ x, 0 ≤ x → 0 ≤ sqrtR x) → sqrtR 0 = 0 →
        (∃ n, norm sqrtR w = .ok n ∧ 0 ≤ n) ∧
        norm sqrtR (⟨fun _ => 0⟩ : Vec R M) = .ok 0) ∧
    (∀ sqrtZ : Int → Int, sqrtZ 25 = 5 →
      norm sqrtZ (⟨![3, 4]⟩ : Vec Int 2) = .ok 5) := by
  refine ⟨norm_eq sqrt v, ?_, ?_⟩
  · intro R _ M sqrtR w hnn h0
    constructor
    · obtain ⟨d, hd, hn⟩ := norm_eq sqrtR w
      refine ⟨_, hn, hnn d ?_⟩
      rw [dot_eq_foldl] at hd
      cases hd
      exact foldl_add_nonneg (fun i => w.data_ i * w.data_ i) (fun _ => mul_self_nonneg _)
        (List.finRange M) 0 (le_refl 0)
    · rw [norm, dot_zero_zero]
      simp only [h0]
  · intro sqrtZ h
    have hd : dot (⟨![3, 4]⟩ : Vec Int 2) ⟨![3, 4]⟩ = .ok 25 := rfl
    rw [norm, hd]
    simp only [h]

/-- The zero-vector clause of C12 at the integers with the integer square root:
the hypotheses on the backend can be met. -/
theorem norm_spec_int :
    (∃ n, norm Int.sqrt (⟨![3, 4]⟩ : Vec Int 2) = .ok n ∧ 0 ≤ n) ∧
    norm Int.sqrt (⟨fun _ => 0⟩ : Vec Int 2) = .ok 0 :=
  (norm_spec Int.sqrt (⟨![3, 4]⟩ : Vec Int 2)).2.1 Int 2 Int.sqrt ⟨![3, 4]⟩
    (fun x _ => Int.sqrt_nonneg x) (by simp [Int.sqrt])

/-- C14: `normalize(v)` returns `v / norm(v)`: it always returns a vector, whose
element `i` is `v[i]` divided by what `norm(v)` returns; nothing guards the zero
vector, for which every element of the result is `0` divided by `norm(zero)`,
whatever the division of the element type yields for that. -/
theorem normalize_spec [Zero T] [Add T] [Mul T] [Div T] (sqrt : T → T) (v : Vec T L) :
    (∃ n, norm sqrt v = .ok n ∧ normalize sqrt v = .ok ⟨fun i => v.data_ i / n⟩) ∧
    (∃ n0, norm sqrt (⟨fun _ => 0⟩ : Vec T L) = .ok n0 ∧
      normalize sqrt (⟨fun _ => 0⟩ : Vec T L) = .ok ⟨fun _ => 0 / n0⟩) :=
  ⟨normalize_eq sqrt v, normalize_eq sqrt ⟨fun _ => 0⟩⟩

/-- Over a linearly ordered field, `dot(v, v)` of a vector other than the zero
vector is positive. -/
theorem sum_mul_self_pos [LinearOrderedField T] (v : Vec T L)
    (hv : v ≠ ⟨fun _ => 0⟩) : 0 < ∑ i : Fin L, v.data_ i * v.data_ i := by
  have hex : ∃ i, v.data_ i ≠ 0 := by
    by_contra hno
    apply hv
    apply Vec.ext_data
    funext i
    by_contra hi
    exact hno ⟨i, hi⟩
  obtain ⟨i, hi⟩ := hex
  exact Finset.sum_pos' (fun j _ => mul_self_nonneg _)
    ⟨i, Finset.mem_univ i, mul_self_pos.mpr hi⟩

/-- C15: normalization yields unit length, in exact arithmetic: over a linearly
ordered field with an exact square root (non-negative, and squaring back to its
non-negative argument), for every vector `v` other than the zero vector
`normalize(v)` returns a vector whose `norm` is exactly `1`. -/
theorem norm_normalize_eq_one [LinearOrderedField T] (sqrt : T → T)
    (hsqrt : ∀ x, 0 ≤ x → 0 ≤ sqrt x ∧ sqrt x * sqrt x = x)
    (v : Vec T L) (hv : v ≠ ⟨fun _ => 0⟩) :
    ∃ u, normalize sqrt v = .ok u ∧ norm sqrt u = .ok 1 := by
  have hpos := sum_mul_self_pos v hv
  obtain ⟨n, hn, hu⟩ := normalize_eq sqrt v
  have hn2 : n = sqrt (∑ i : Fin L, v.data_ i * v.data_ i) := by
    rw [norm, dot_eq_sum] at hn
    cases hn
    rfl
  obtain ⟨_, hsq⟩ := hsqrt _ (le_of_lt hpos)
  rw [← hn2] at hsq
  have hnn : n * n ≠ 0 := by
    rw [hsq]
    exact ne_of_gt hpos
  refine ⟨_, hu, ?_⟩
  have hdot : (∑ i : Fin L, v.data_ i / n * (v.data_ i / n)) = 1 := by
    have : ∀ i : Fin L, v.data_ i / n * (v.data_ i / n) = v.data_ i * v.data_ i / (n * n) :=
      fun i => div_mul_div_comm _ _ _ _
    simp only [this]
    rw [← Finset.sum_div, ← hsq]
    exact div_self hnn
  rw [norm, dot_eq_sum]
  simp only [hdot]
  obtain ⟨h1, h2⟩ := hsqrt 1 zero_le_one
  rcases mul_self_eq_one_iff.mp h2 with h | h
  · rw [h]
  · rw [h] at h1
    exact absurd h1 (by norm_num)

/-- C15 at the real numbers with the real square root, on the vector `(3, 4)`. -/
theorem norm_normalize_eq_one_real :
    ∃ u, normalize Real.sqrt (⟨![3, 4]⟩ : Vec ℝ 2) = .ok u ∧ norm Real.sqrt u = .ok 1 :=
  norm_normalize_eq_one Real.sqrt
    (fun x hx => ⟨Real.sqrt_nonneg x, Real.mul_self_sqrt hx⟩) ⟨![3, 4]⟩
    (fun h => by
      have h0 := congrArg (fun w : Vec ℝ 2 => w.data_ 0) h
      simp at h0)

end Norm

/-! ## Textual rendering -/

section Rendering

variable {T : Type} {L : Nat}

/-- Joining onto an accumulator that starts with `s` is `s` followed by the
joining onto the rest of the accumulator. -/
theorem intercalate_go_append (sep : String) (l : List String) :
    ∀ s a : String, String.intercalate.go (s ++ a) sep l =
      s ++ String.intercalate.go a sep l := by
  induction l with
  | nil =>
    intro s a
    rfl
  | cons x l ih =>
    intro s a
    simp only [String.intercalate.go]
    rw [← ih s (a ++ sep ++ x)]
    simp only [String.append_assoc]

/-- Once the flag `first` is cleared, the loop of `operator<<` writes the separator
before every element that is left. -/
theorem streamLoop_false (put : T → String) (l : List T) :
    ∀ stream : String, streamLoop put l false stream =
      String.intercalate.go stream ", " (l.map put) := by
  induction l with
  | nil =>
    intro stream
    rfl
  | cons x l ih =>
    intro stream
    simp only [streamLoop, List.map_cons, String.intercalate.go]
    exact ih _

/-- Started with the flag `first` set, the loop of `operator<<` appends the
elements joined by the separator. -/
theorem streamLoop_true (put : T → String) (l : List T) (stream : String) :
    streamLoop put l true stream = stream ++ String.intercalate ", " (l.map put) := by
  cases l with
  | nil =>
    simp [streamLoop, String.intercalate]
  | cons x l =>
    simp only [streamLoop, List.map_cons, String.intercalate]
    rw [← intercalate_go_append]
    exact streamLoop_false put l _

/-- C16: textual rendering appends to the stream exactly `"("`, the renderings of
the `L` elements in index order joined by `", "`, and `")"`, so no separator
leads or trails; rendering `(1, 2, 3)` writes `"(1, 2, 3)"`. -/
theorem operator_lshift_spec (put : T → String) (stream : String) (vec : Vec T L) :
    operator_lshift put stream vec =
      stream ++ "(" ++ String.intercalate ", " (List.ofFn fun i => put (vec.data_ i))
        ++ ")" ∧
    operator_lshift (fun n : Int => toString n) "" (⟨![1, 2, 3]⟩ : Vec Int 3) =
      "(1, 2, 3)" := by
  refine ⟨?_, by decide⟩
  rw [operator_lshift, streamLoop_true, List.map_ofFn]
  rfl

end Rendering

/-! ## Compound forms -/

section Compound

variable {T : Type} {L : Nat}

/-- The loop `lhs[i] op= rhs[i]` when `rhs` is `lhs` itself: iteration `i` reads
element `i` before it writes it, so every element is combined with its own old
value. -/
theorem forLoop_elemAssign_self (op : T → T → T) (lhs : Vec T L) :
    forLoop (elemAssign op .self) L 0 lhs =
      .ok ⟨fun j => op (lhs.data_ j) (lhs.data_ j)⟩ :=
  forLoop_pointwise_all (fun _ x => op x x) _
    (fun i h v => by simp [elemAssign, VecRef.read, Vec.index, Vec.indexUpdate, h]) lhs

/-- The loop `lhs[i] op= rhs[i]` for any right operand returns what the same loop
returns on a copy of `lhs` with the original right operand. -/
theorem forLoop_elemAssign_any (op : T → T → T) (lhs : Vec T L) (r : VecRef T L) :
    ∃ x, forLoop (elemAssign op r) L 0 lhs = .ok x ∧
      forLoop (elemAssign op (.other (r.read lhs))) L 0 lhs = .ok x := by
  cases r with
  | other b => exact ⟨_, forLoop_elemAssign op lhs b, forLoop_elemAssign op lhs b⟩
  | self => exact ⟨_, forLoop_elemAssign_self op lhs, forLoop_elemAssign op lhs lhs⟩

/-- The claim C17 as stated fails for a scalar that is an element of the left
operand: on `v = (2, 3)`, `v *= v[0]` leaves `(4, 12)` in `v`, while `v * v[0]`
returns `(4, 6)`. -/
theorem compound_scalar_alias_differs :
    ∃ x y, operator_mul_assign_scalar (⟨![2, 3]⟩ : Vec Int 2) (.element 0) = .ok x ∧
      operator_mul_scalar (⟨![2, 3]⟩ : Vec Int 2)
        ((ScalarRef.element 0 : ScalarRef Int 2).read ⟨![2, 3]⟩) = .ok y ∧
      List.ofFn x.data_ = [4, 12] ∧ List.ofFn y.data_ = [4, 6] ∧ x ≠ y := by
  refine ⟨_, _, rfl, rfl, rfl, rfl, ?_⟩
  intro h
  have h1 := congrArg (fun v : Vec Int 2 => List.ofFn v.data_) h
  revert h1
  decide

/-- C17, amended: after `a op= b` for a vector `b` (`a` itself included) the left
operand holds exactly what `a op b` returns on the original operands; the same
holds for `a *= s` and `a /= s` when `s` is not stored in `a`; and a right
operand that is not the left operand, or part of it, reads the same after the
call as before. -/
theorem compound_matches_binary [Add T] [Sub T] [Mul T] [Div T]
    (a : Vec T L) (r : VecRef T L) (b : Vec T L) (s : T) :
    (∃ x, operator_add_assign a r = .ok x ∧ operator_add a (r.read a) = .ok x) ∧
    (∃ x, operator_sub_assign a r = .ok x ∧ operator_sub a (r.read a) = .ok x) ∧
    (∃ x, operator_mul_assign a r = .ok x ∧ operator_mul a (r.read a) = .ok x) ∧
    (∃ x, operator_div_assign a r = .ok x ∧ operator_div a (r.read a) = .ok x) ∧
    (∃ x, operator_mul_assign_scalar a (.value s) = .ok x ∧
      operator_mul_scalar a s = .ok x ∧ (ScalarRef.value s).read x = s) ∧
    (∃ x, operator_div_assign_scalar a (.value s) = .ok x ∧
      operator_div_scalar a s = .ok x ∧ (ScalarRef.value s).read x = s) ∧
    (∀ x : Vec T L, (VecRef.other b).read x = b) :=
  ⟨forLoop_elemAssign_any _ a r, forLoop_elemAssign_any _ a r,
    forLoop_elemAssign_any _ a r, forLoop_elemAssign_any _ a r,
    ⟨_, forLoop_scalar _ a s, forLoop_scalar _ a s, rfl⟩,
    ⟨_, forLoop_scalar _ a s, forLoop_scalar _ a s, rfl⟩,
    fun _ => rfl⟩

/-- C18: identity: over a ring, `v + zero` returns `v` and `v - v` returns the
zero vector, and the vector `==` confirms both. -/
theorem add_zero_sub_self [Ring T] [DecidableEq T] (v : Vec T L) :
    (∃ x, operator_add v ⟨fun _ => 0⟩ = .ok x ∧ x = v ∧ operator_eq x v = .ok true) ∧
    (∃ y, operator_sub v v = .ok y ∧ y = ⟨fun _ => 0⟩ ∧
      operator_eq y ⟨fun _ => 0⟩ = .ok true) := by
  have h1 : (⟨fun j => v.data_ j + 0⟩ : Vec T L) = v := by
    apply Vec.ext_data
    funext j
    simp
  have h2 : (⟨fun j => v.data_ j - v.data_ j⟩ : Vec T L) = ⟨fun _ => 0⟩ := by
    apply Vec.ext_data
    funext j
    simp
  constructor
  · refine ⟨_, forLoop_elemAssign _ v ⟨fun _ => 0⟩, h1, ?_⟩
    rw [h1]
    exact operator_eq_self v
  · refine ⟨_, forLoop_elemAssign _ v v, h2, ?_⟩
    rw [h2]
    exact operator_eq_self _

end Compound

/-! ## The length parameter -/

section Length

variable {T : Type}

/-- The claim C19 as stated fails: the length `0` is accepted, and a vector of
length `0` exists. -/
theorem vec_length_zero_definable :
    ¬ (∀ N : Nat, Nonempty (Vec Int N) → 1 ≤ N) := by
  intro h
  have h0 := h 0 ⟨⟨![]⟩⟩
  omega

/-- C19, amended: the length of a vector is fixed by its type and may be any
`N ≥ 0`: for every `N` and every choice of `N` elements there is the vector
holding them, with `size() = N`; nothing rejects `N = 0`, and on a vector of
length `0`, `size()` is `0` and `at(i)` throws for every `i`. -/
theorem vec_length_unconstrained (N : Nat) (f : Fin N → T) :
    (∃ v : Vec T N, v.data_ = f ∧ v.size = N) ∧
    (∃ v0 : Vec T 0, v0.size = 0 ∧ ∀ i, v0.at_ i = .error .out_of_range) :=
  ⟨⟨⟨f⟩, rfl, rfl⟩, ⟨⟨fun i => i.elim0⟩, rfl, fun i => by simp [Vec.at_]⟩⟩

end Length

/-! ## The precondition of `operator[]` -/

section Indexing

variable {T : Type} {L : Nat}

/-- A loop whose body succeeds at every index below `L` runs to the end. -/
theorem forLoop_isOk {σ : Type} (body : Nat → σ → Except Error σ)
    (hbody : ∀ i, i < L → ∀ s, (body i s).isOk = true) :
    ∀ (n i : Nat) (s : σ), i + n = L → (forLoop body n i s).isOk = true := by
  intro n
  induction n with
  | zero =>
    intro i s _
    rfl
  | succ n ih =>
    intro i s hi
    have h := hbody i (by omega) s
    simp only [forLoop]
    cases hb : body i s with
    | ok s' => exact ih (i + 1) s' (by omega)
    | error e =>
      rw [hb] at h
      cases h

/-- The statement `lhs[i] op= rhs[i]` passes an index below `L` to both uses of
`operator[]`, whatever the right operand refers to. -/
theorem elemAssign_isOk (op : T → T → T) (r : VecRef T L) (i : Nat) (h : i < L)
    (lhs : Vec T L) : (elemAssign op r i lhs).isOk = true := by
  simp [elemAssign, Vec.index, Vec.indexUpdate, h, Except.isOk, Except.toBool]

/-- The statement `lhs[i] op= rhs` passes an index below `L` to `operator[]`,
whatever the scalar reference refers to. -/
theorem scalarAssign_isOk (op : T → T → T) (r : ScalarRef T L) (i : Nat) (h : i < L)
    (lhs : Vec T L) : (scalarAssign op r i lhs).isOk = true := by
  simp [scalarAssign, Vec.indexUpdate, h, Except.isOk, Except.toBool]

/-- An operation that returns a value did not fail. -/
theorem isOk_of_eq_ok {α : Type} {e : Except Error α} {x : α} (h : e = .ok x) :
    e.isOk = true := by
  rw [h]
  rfl

/-- C20: no use of `operator[]` inside the library trips its assertion: `==`, `!=`,
unary negation, the elementwise operators and their compound forms, the
scalar-broadcast operators and their compound forms, `dot` and `cross` all
return without an error, for every length, all operands, and every object the
right operand of a compound form may refer to; and `operator[]` itself succeeds
exactly on the indices below the length, so an index that is not below it
would have ended the operation in `assertion_failure`. -/
theorem operator_index_in_range [BEq T] [Zero T] [Neg T] [Add T] [Sub T] [Mul T] [Div T]
    (a b : Vec T L) (r : VecRef T L) (s : ScalarRef T L) (x : T) (c d : Vec T 3) :
    (operator_eq a b).isOk = true ∧ (operator_ne a b).isOk = true ∧
    (operator_neg a).isOk = true ∧
    (operator_add_assign a r).isOk = true ∧ (operator_add a b).isOk = true ∧
    (operator_sub_assign a r).isOk = true ∧ (operator_sub a b).isOk = true ∧
    (operator_mul_assign a r).isOk = true ∧ (operator_mul a b).isOk = true ∧
    (operator_div_assign a r).isOk = true ∧ (operator_div a b).isOk = true ∧
    (operator_mul_assign_scalar a s).isOk = true ∧ (operator_mul_scalar a x).isOk = true ∧
    (operator_scalar_mul x a).isOk = true ∧
    (operator_div_assign_scalar a s).isOk = true ∧ (operator_div_scalar a x).isOk = true ∧
    (dot a b).isOk = true ∧ (cross c d).isOk = true ∧
    (∀ i, (a.index i).isOk = true ↔ i < L) := by
  have hidx : ∀ i, (a.index i).isOk = true ↔ i < L := by
    intro i
    by_cases h : i < L <;> simp [Vec.index, h, Except.isOk, Except.toBool]
  obtain ⟨_, he, hn⟩ := neLoop_eq_not_eqLoop a b L 0 (by omega)
  have hv : ∀ (op : T → T → T) (v : Vec T L) (q : VecRef T L),
      (forLoop (elemAssign op q) L 0 v).isOk = true :=
    fun op v q => forLoop_isOk _ (fun i h w => elemAssign_isOk op q i h w) L 0 v (by omega)
  have hs : ∀ (op : T → T → T) (v : Vec T L) (q : ScalarRef T L),
      (forLoop (scalarAssign op q) L 0 v).isOk = true :=
    fun op v q => forLoop_isOk _ (fun i h w => scalarAssign_isOk op q i h w) L 0 v (by omega)
  exact ⟨isOk_of_eq_ok he, isOk_of_eq_ok hn, hv _ _ _, hv _ _ _, hv _ _ _, hv _ _ _,
    hv _ _ _, hv _ _ _, hv _ _ _, hv _ _ _, hv _ _ _, hs _ _ _, hs _ _ _, hs _ _ _,
    hs _ _ _, hs _ _ _, isOk_of_eq_ok (dot_eq_foldl a b), isOk_of_eq_ok (cross_eq c d), hidx⟩

end Indexing

end vecpp
